import Mathlib

/-!
Verification of the authorization-gated, audit-logged report pipeline of the
`erp-excel` (kanban) repository, against its natural-language specification.

The Go sources are shallowly embedded:

* `time.Time` values (package `time`) are modelled as `Instant := Int`, a count
  of nanoseconds since 1970-01-01T00:00:00 in UTC (the location is fixed to UTC;
  `t.Truncate(24h)` then coincides with flooring to the day boundary, which is
  what the source relies on).  Civil-calendar conversions follow the proleptic
  Gregorian calendar, exactly as Go's `time.Date` / `Year` / `Month` / `Day` /
  `AddDate` compute them; `time.Date`'s month normalization (floor division of
  the month excess into years) is reproduced in `goDate`.
* `internal/service` report service (`resolveDateRange`, `validateDateRange`,
  `GetInventoryReportData`, `ExportInventoryReport`, `updateLogStatus`) is
  embedded as pure functions; the effectful collaborators (audit repository,
  report data source, spreadsheet renderer) are oracles supplied in a
  `PipelineEnv`, and every call the service makes to them is recorded in an
  event trace, in program order.
* `*time.Time` / `*string` request fields (`dto.DateRangeRequest`) become
  `Option` fields; dereferencing a `nil` pointer is modelled by the dedicated
  error outcome `ResolveErr.nilDeref` (a Go runtime panic).
* the role/operation permission queries (`operation_service.CheckUserAccess`,
  `role_repository.CheckUserOperationAccess`) are embedded over a relational
  database snapshot `AuthDB`; the SQL join/filter is translated row by row.
* `utils.ExportToExcel` is embedded as the list of cell writes it performs
  (title cell, header row 3, data rows from row 4), and
  `translate.TranslateKey` over an abstract localization map.
-/

/-- Nanoseconds in 24 hours (`24 * time.Hour` in the source). -/
def nsPerDay : Int := 86400000000000

/-- Proleptic-Gregorian leap-year predicate (as in Go `isLeap`). -/
def isLeapYear (y : Int) : Bool :=
  y % 4 = 0 && (y % 100 ≠ 0 || y % 400 = 0)

/-- Length of a civil month. -/
def daysInMonth (y m : Int) : Int :=
  if m = 2 then (if isLeapYear y then 29 else 28)
  else if m = 4 ∨ m = 6 ∨ m = 9 ∨ m = 11 then 30
  else 31

/-- Day number (days since 1970-01-01) of a civil date, proleptic Gregorian. -/
def daysFromCivil (y m d : Int) : Int :=
  let y' := if m ≤ 2 then y - 1 else y
  let era := y' / 400
  let yoe := y' - era * 400
  let mp := (m + 9) % 12
  let doy := (153 * mp + 2) / 5 + d - 1
  let doe := yoe * 365 + yoe / 4 - yoe / 100 + doy
  era * 146097 + doe - 719468

/-- Civil date `(year, month, day)` of a day number; inverse of
`daysFromCivil` (century / quadrennium / year cascade with the two clamps). -/
def civilFromDays (z : Int) : Int × Int × Int :=
  let z' := z + 719468
  let era := z' / 146097
  let doe := z' % 146097
  let c := min (doe / 36524) 3
  let doc := doe - 36524 * c
  let q := doc / 1461
  let dq := doc % 1461
  let y1 := min (dq / 365) 3
  let doy := dq - 365 * y1
  let yoe := 100 * c + 4 * q + y1
  let y := yoe + era * 400
  let mp := (5 * doy + 2) / 153
  let d := doy - (153 * mp + 2) / 5 + 1
  let m := if mp < 10 then mp + 3 else mp - 9
  (if m ≤ 2 then y + 1 else y, m, d)

/-- A `time.Time` under the UTC model: nanoseconds since 1970-01-01T00:00 UTC. -/
abbrev Instant := Int

/-- Day number of an instant. -/
def dayOf (t : Instant) : Int := t / nsPerDay

/-- Nanosecond of day of an instant (always in `[0, nsPerDay)`). -/
def nsOfDay (t : Instant) : Int := t % nsPerDay

/-- Go `t.Truncate(24 * time.Hour)` under UTC: floor to the day boundary. -/
def truncateDay (t : Instant) : Int := dayOf t * nsPerDay

/-- Go `t.Year()`. -/
def yearOf (t : Instant) : Int := (civilFromDays (dayOf t)).1

/-- Go `t.Month()`. -/
def monthOf (t : Instant) : Int := (civilFromDays (dayOf t)).2.1

/-- Go `t.Day()`. -/
def domOf (t : Instant) : Int := (civilFromDays (dayOf t)).2.2

/-- Go `time.Date(y, m, d, 0, 0, 0, 0, UTC)` plus `ns` nanoseconds of day:
months are normalized by floor division (Go's `norm`), and both the day excess
and the nanosecond excess carry linearly, exactly as Go's absolute-time
computation does. -/
def goDate (y m d ns : Int) : Int :=
  (daysFromCivil (y + (m - 1) / 12) ((m - 1) % 12 + 1) 1 + (d - 1)) * nsPerDay + ns

/-- Go `t.AddDate(years, months, days)` =
`Date(t.Year()+years, t.Month()+months, t.Day()+days, clock of t, loc)`. -/
def addDate (t : Instant) (years months days : Int) : Int :=
  goDate (yearOf t + years) (monthOf t + months) (domOf t + days) (nsOfDay t)

/-- Go zero `time.Time{}` (January 1, year 1, 00:00:00 UTC); `t.IsZero()` is
equality with this value. -/
def goZeroTime : Int := daysFromCivil 1 1 1 * nsPerDay

/-- `dto.DateRangeRequest` (`internal/dto/assistant230.go`): all three fields
are pointers in the source (`*time.Time`, `*time.Time`, `*string`), hence
`Option` here; `none` is a `nil` pointer (field absent from the JSON body). -/
structure DateRangeRequest where
  fromDate : Option Instant
  toDate : Option Instant
  period : Option String
deriving DecidableEq, Repr

/-- Outcomes of `reportService.resolveDateRange`.  The first three are the Go
`error` returns (`invalid period specified`, `invalid FromDate or ToDate
(year < 1900)`, `fromDate and toDate are required if period is not
specified`); `nilDeref` is the runtime panic raised when
`request.FromDate.IsZero()` (or `.ToDate.IsZero()`) dereferences a nil
pointer. -/
inductive ResolveErr
  | invalidPeriod
  | invalidDate
  | missingDateRange
  | nilDeref
deriving DecidableEq, Repr

/-- The explicit-dates branch of `resolveDateRange` (the `else if` at line 82
of the service): evaluates `!request.FromDate.IsZero() &&
!request.ToDate.IsZero()` with Go short-circuiting, panicking on a nil
pointer dereference. -/
def resolveExplicit (req : DateRangeRequest) : Except ResolveErr (Instant × Instant) :=
  match req.fromDate with
  | none => .error .nilDeref
  | some f =>
    if f = goZeroTime then .error .missingDateRange
    else
      match req.toDate with
      | none => .error .nilDeref
      | some t =>
        if t = goZeroTime then .error .missingDateRange
        else if yearOf f < 1900 ∨ yearOf t < 1900 then .error .invalidDate
        else .ok (truncateDay f, truncateDay t + (nsPerDay - 1))

/-- `reportService.resolveDateRange` (service file, lines 51-100), with the
single `time.Now()` it reads passed in as `now`.  `currentEndOfDay` is
`now.Truncate(24h).Add(24h - time.Nanosecond)`. -/
def resolveDateRange (now : Instant) (req : DateRangeRequest) :
    Except ResolveErr (Instant × Instant) :=
  let currentEndOfDay := truncateDay now + (nsPerDay - 1)
  match req.period with
  | some p =>
    if p = "" then resolveExplicit req
    else if p = "7days" then
      .ok (truncateDay (addDate currentEndOfDay 0 0 (-6)), currentEndOfDay)
    else if p = "30days" then
      .ok (truncateDay (addDate currentEndOfDay 0 0 (-29)), currentEndOfDay)
    else if p = "3months" then
      .ok (truncateDay (addDate (goDate (yearOf now) (monthOf now) 1 0) 0 (-2) 0),
           currentEndOfDay)
    else if p = "currentmonth" then
      .ok (goDate (yearOf now) (monthOf now) 1 0, currentEndOfDay)
    else if p = "lastmonth" then
      let firstOfThisMonth := goDate (yearOf now) (monthOf now) 1 0
      let toD := firstOfThisMonth - 1
      .ok (goDate (yearOf toD) (monthOf toD) 1 0, toD)
    else .error .invalidPeriod
  | none => resolveExplicit req

/-- Outcomes of `reportService.validateDateRange` (lines 279-301). -/
inductive ValidateErr
  | invertedRange
  | futureDate
  | windowTooWide
deriving DecidableEq, Repr

/-- `reportService.validateDateRange`: the three rejections, in source order;
`maxMonths` is `config.Excel.MaxSearchMonths`. -/
def validateDateRange (now : Instant) (maxMonths : Int) (fromDate toDate : Instant) :
    Except ValidateErr Unit :=
  if toDate < fromDate then .error .invertedRange
  else
    let nowEndOfDay := truncateDay now + (nsPerDay - 1)
    if nowEndOfDay < toDate then .error .futureDate
    else
      let oldestAllowed := addDate (truncateDay now) 0 (-maxMonths) 0
      if truncateDay fromDate < oldestAllowed then .error .windowTooWide
      else .ok ()

/-- A row of the Assistant-230 report (`dto.Asisstant230ReportItem`). -/
structure ReportItem where
  documentDate : String
  salesOrderNumber : String
  customerName : String
  currencyType : String
  currency : String
  detailedOrderNumber : String
  invoiceNumber : String
  notes : String
deriving DecidableEq, Repr

/-- Observable calls the report service makes to its collaborators, in program
order.  `authQuery` stands for a Permission Graph query
(`operationService.CheckUserAccess`); the constructor exists so that the
presence or absence of an authorization step in a trace is expressible —
the report service itself never emits it. -/
inductive PipeEvent
  | authQuery (userID : Int) (operationCode : String)
  | logAccess (userID operationID : Int) (status : String)
  | updateLog (logID : Int) (status : String)
  | fetch (fromDate toDate departmentID : Int)
  | render (title : String)
deriving DecidableEq, Repr

/-- `true` exactly on Permission Graph query events. -/
def PipeEvent.isAuthQuery : PipeEvent → Bool
  | .authQuery _ _ => true
  | _ => false

/-- `true` exactly on audit status-update attempts. -/
def PipeEvent.isUpdateLog : PipeEvent → Bool
  | .updateLog _ _ => true
  | _ => false

/-- Error outcomes of the two report-service entry points. -/
inductive PipeErr
  | resolve (e : ResolveErr)
  | validate (e : ValidateErr)
  | dataSource
  | noData
  | render
deriving DecidableEq, Repr

/-- Oracle results for the effectful collaborators during one request:
`logAccessResult` is `operationRepo.LogAccess` (`.ok id` or a database error,
in which case the repository returns id `0`); `fetchResult` is
`inventoryRepo.GetInventoryReport`; `renderResult` is `utils.ExportToExcel`
(`.ok` carries the generated file name); `updateLogFails` says whether
`operationRepo.UpdateLogStatus` fails — the service ignores that error
(it only logs it), which is why no output below depends on this field. -/
structure PipelineEnv where
  now : Instant
  maxMonths : Int
  logAccessResult : Except Unit Int
  fetchResult : Except Unit (List ReportItem)
  renderResult : Except Unit String
  updateLogFails : Bool

/-- The `logID` the service proceeds with: `LogAccess` returns `0` alongside
its error, and the service keeps going either way (lines 139-142). -/
def logIDof : Except Unit Int → Int
  | .ok id => id
  | .error _ => 0

/-- `reportService.updateLogStatus` (lines 304-312): no-op for the sentinel
(`logID <= 0`), otherwise exactly one status-update attempt whose own
failure is swallowed.  Returns the attempted writes. -/
def updateLogStatus (logID : Int) (status : String) : List PipeEvent :=
  if logID ≤ 0 then [] else [.updateLog logID status]

/-- `reportService.GetInventoryReportData` (lines 103-163): resolve, validate,
`LogAccess` with operation id 1, fetch, finalize.  Returns the Go result
paired with the trace of collaborator calls. -/
def getInventoryReportData (env : PipelineEnv) (userID departmentID : Int)
    (req : DateRangeRequest) : Except PipeErr (List ReportItem) × List PipeEvent :=
  match resolveDateRange env.now req with
  | .error e => (.error (.resolve e), [])
  | .ok (f, t) =>
    match validateDateRange env.now env.maxMonths f t with
    | .error e => (.error (.validate e), [])
    | .ok _ =>
      let logID := logIDof env.logAccessResult
      let begun := [PipeEvent.logAccess userID 1 "pending"]
      match env.fetchResult with
      | .error _ =>
        (.error .dataSource,
         begun ++ [.fetch f t departmentID] ++ updateLogStatus logID "error")
      | .ok items =>
        if items.isEmpty then
          (.ok [], begun ++ [.fetch f t departmentID] ++ updateLogStatus logID "success")
        else
          (.ok items, begun ++ [.fetch f t departmentID] ++ updateLogStatus logID "success")

/-- Go `02/01/2006` date formatting (day/month/year, zero padded). -/
def pad2 (n : Int) : String := (if n < 10 then "0" else "") ++ toString n

/-- Four-digit year as Go's `2006` verb prints it for CE years. -/
def pad4 (n : Int) : String :=
  (if n < 10 then "000" else if n < 100 then "00" else if n < 1000 then "0" else "")
    ++ toString n

/-- `t.Format("02/01/2006")`. -/
def formatDate (t : Instant) : String :=
  pad2 (domOf t) ++ "/" ++ pad2 (monthOf t) ++ "/" ++ pad4 (yearOf t)

/-- The export title built at lines 226-229 of the service: always the two
formatted resolved dates, whether or not a period symbol was supplied. -/
def exportTitle (fromDate toDate : Instant) : String :=
  "Export Sales 230 from " ++ formatDate fromDate ++ " to " ++ formatDate toDate

/-- The export artifact description the service returns
(`dto.ReportFileResponse`, sans timestamp). -/
structure ReportFile where
  reportName : String
  fileName : String
deriving DecidableEq, Repr

/-- `reportService.ExportInventoryReport` (lines 166-275): resolve, validate,
`LogAccess` with operation id 2, fetch, empty check (`NoData`), render,
finalize. -/
def exportInventoryReport (env : PipelineEnv) (userID departmentID : Int)
    (req : DateRangeRequest) : Except PipeErr ReportFile × List PipeEvent :=
  match resolveDateRange env.now req with
  | .error e => (.error (.resolve e), [])
  | .ok (f, t) =>
    match validateDateRange env.now env.maxMonths f t with
    | .error e => (.error (.validate e), [])
    | .ok _ =>
      let logID := logIDof env.logAccessResult
      let begun := [PipeEvent.logAccess userID 2 "pending"]
      match env.fetchResult with
      | .error _ =>
        (.error .dataSource,
         begun ++ [.fetch f t departmentID] ++ updateLogStatus logID "error")
      | .ok items =>
        if items.isEmpty then
          (.error .noData,
           begun ++ [.fetch f t departmentID] ++ updateLogStatus logID "success")
        else
          let title := exportTitle f t
          match env.renderResult with
          | .error _ =>
            (.error .render,
             begun ++ [.fetch f t departmentID, .render title] ++ updateLogStatus logID "error")
          | .ok fname =>
            (.ok ⟨title, fname⟩,
             begun ++ [.fetch f t departmentID, .render title] ++ updateLogStatus logID "success")

/-- `handlers.formatPeriod` (assistant230_handler.go, lines 96-111): the
localized label of a period symbol, falling back to the raw symbol. -/
def formatPeriod (period : String) : String :=
  if period = "7days" then "7 ngày gần nhất"
  else if period = "30days" then "30 ngày gần nhất"
  else if period = "3months" then "3 tháng gần nhất"
  else if period = "currentmonth" then "Tháng hiện tại"
  else if period = "lastmonth" then "Tháng trước"
  else period

/-- `Period != nil && *Period != ""`. -/
def periodSupplied (req : DateRangeRequest) : Bool :=
  match req.period with
  | some p => p ≠ ""
  | none => false

/-- `FromDate != nil && !FromDate.IsZero() && ToDate != nil && !ToDate.IsZero()`. -/
def datesSupplied (req : DateRangeRequest) : Bool :=
  match req.fromDate, req.toDate with
  | some f, some t => f ≠ goZeroTime && t ≠ goZeroTime
  | _, _ => false

/-- The view title built by the handler (`GetInventoryReportData`, handler
lines 76-84): localized period label if a period was supplied, else the two
formatted request dates. -/
def viewReportTitle (req : DateRangeRequest) : String :=
  if periodSupplied req then
    "Report: " ++ formatPeriod (req.period.getD "")
  else if datesSupplied req then
    "Report from " ++ formatDate (req.fromDate.getD 0) ++ " to "
      ++ formatDate (req.toDate.getD 0)
  else "Report "

/-- Snapshot of the authorization tables: `operations (id, code)`,
`user_roles (user_id, role_id)`, `role_operations (role_id, operation_id,
can_access)`. -/
structure AuthDB where
  operations : List (Int × String)
  userRoles : List (Int × Int)
  roleOperations : List (Int × Int × Bool)

/-- `operationRepo.FindByCode`: `SELECT ... FROM operations WHERE code=@code`
via `QueryRow` (first matching row); `none` is `sql.ErrNoRows`, which the
repository surfaces as an error. -/
def FindByCode (db : AuthDB) (code : String) : Option Int :=
  ((db.operations.find? fun op => op.2 == code).map fun op => op.1)

/-- The join/filter condition of `roleRepository.CheckUserOperationAccess`:
`ur.user_id = @user_id AND ro.operation_id = @operation_id AND
ro.can_access = 1 AND ur.role_id = ro.role_id`. -/
def grantMatches (userID operationID : Int) (ur : Int × Int) (ro : Int × Int × Bool) : Bool :=
  ur.1 == userID && ro.2.1 == operationID && ro.2.2 && ur.2 == ro.1

/-- The rows of the `user_roles JOIN role_operations` query. -/
def joinRows (db : AuthDB) (userID operationID : Int) :
    List ((Int × Int) × (Int × Int × Bool)) :=
  db.userRoles.flatMap fun ur =>
    (db.roleOperations.filter (grantMatches userID operationID ur)).map fun ro => (ur, ro)

/-- `roleRepository.CheckUserOperationAccess` (role repository, lines
344-368): `SELECT COUNT(*) ...; return count > 0`. -/
def CheckUserOperationAccess (db : AuthDB) (userID operationID : Int) : Bool :=
  decide (0 < (joinRows db userID operationID).length)

/-- `operationService.CheckUserAccess` (operation_service.go, lines 47-56):
resolve the code, then query the join; a read-only computation — it issues
no insert or update. -/
def CheckUserAccess (db : AuthDB) (userID : Int) (operationCode : String) :
    Except Unit Bool :=
  match FindByCode db operationCode with
  | none => .error ()
  | some opID => .ok (CheckUserOperationAccess db userID opID)

/-- One pre-joined row of the ERP query in
`inventoryRepository.GetInventoryReport` (part `repository/inventory_repository.go`):
`tg023` and `tg042` feed the `WHERE` clause (`COPTG.TG023 <> 'V' AND TG042
BETWEEN @FromDate AND @ToDate AND ACRTA.TA001 IS NULL`, the latter as
`invoiceOpen`), `item` the projected columns. -/
structure ErpRow where
  tg023 : String
  tg042 : Instant
  invoiceOpen : Bool
  item : ReportItem
deriving DecidableEq, Repr

/-- `inventoryRepository.GetInventoryReport` (lines 400-484): the query is
parameterized only by `@FromDate` and `@ToDate`; the `departmentID` argument
is accepted but never bound (the `sql.Named("DepartmentID", ...)` line is
commented out), so it does not occur in the body. -/
def GetInventoryReport (erp : List ErpRow) (fromDate toDate : Instant)
    (departmentID : Int) : List ReportItem :=
  (((erp.filter fun r =>
      r.tg023 ≠ "V" && decide (fromDate ≤ r.tg042) && decide (r.tg042 ≤ toDate)
        && r.invoiceOpen).map fun r => r.item).dedup)

/-- A report row as the exporter consumes it: a field-name → value mapping
(`map[string]interface{}` whose values are the item's string fields). -/
abbrev RowMap := List (String × String)

/-- Go `item[header]`: `none` when the key is absent (nil interface value,
which excelize renders as an empty cell). -/
def rowLookup (row : RowMap) (key : String) : Option String :=
  ((row.find? fun e => e.1 == key).map fun e => e.2)

/-- `translate.TranslateKey` over localization map `m` (`enToVnTranslate`):
the translation when the map has the key, the raw key otherwise. -/
def TranslateKey (m : List (String × String)) (key : String) : String :=
  match (m.find? fun e => e.1 == key).map fun e => e.2 with
  | some v => v
  | none => key

/-- The written cells of one spreadsheet row: columns `col, col+1, ...` of row
`rowNum` (column `0` is Excel column A).  The source addresses each cell by
`fmt.Sprintf("%c%d", rune('A'+col), rowNum)`: only `col < 26` yields a letter
`A`..`Z` and hence a valid cell reference; for a later column the name is
invalid (`rune('A'+26) = '['`), `SetCellValue` fails, and the discarded error
means the write never happens. -/
def rowCells : List String → Nat → Nat → List ((Nat × Nat) × String)
  | [], _, _ => []
  | v :: rest, col, rowNum =>
    if col < 26 then ((col, rowNum), v) :: rowCells rest (col + 1) rowNum
    else rowCells rest (col + 1) rowNum

/-- The data-region writes of `utils.ExportToExcel`: item `i` is written to
row `i + 4` (`row := i + 4` in the source), one cell per header, value
`item[header]` (empty string standing for the nil interface of a missing
field). -/
def dataCells (headers : List String) : List RowMap → Nat → List ((Nat × Nat) × String)
  | [], _ => []
  | row :: rest, rowNum =>
    rowCells (headers.map fun h => (rowLookup row h).getD "") 0 rowNum
      ++ dataCells headers rest (rowNum + 1)

/-- All cell writes of `utils.ExportToExcel(data, headers, title)` (lines
72-127): the title at A1, the translated headers on row 3, the data from
row 4 — in every row only columns A..Z actually land (see `rowCells`). -/
def excelCells (m : List (String × String)) (data : List RowMap)
    (headers : List String) (title : String) : List ((Nat × Nat) × String) :=
  ((0, 1), title)
    :: (rowCells (headers.map fun h => TranslateKey m h) 0 3
        ++ dataCells headers data 4)

/-- Reading a cell of the artifact: the written value, or `none` for a cell
that was never written (an empty cell). -/
def cellAt : List ((Nat × Nat) × String) → Nat × Nat → Option String
  | [], _ => none
  | c :: rest, pos => if c.1 = pos then some c.2 else cellAt rest pos

/-- Spec model, §4.3: "current end of day" — "start of the current civil day
plus 24h minus one time unit". -/
def specEndOfDay (now : Instant) : Int := truncateDay now + (nsPerDay - 1)

/-- Spec model, §4.3: "truncated to day start". -/
def specDayStart (t : Instant) : Int := truncateDay t

/-- Spec model, §4.3: "minus n days" (civil-calendar day arithmetic). -/
def specMinusDays (t : Instant) (n : Int) : Int := addDate t 0 0 (-n)

/-- Spec model, §4.3: "first day of the month `k` months after the current
month" (`k = 0`: "first day of current month"; `k = -1`: "first day of
previous month"; `k = -2`: "first day of month, 2 months before current
month"), months wrapping over year boundaries in the civil calendar. -/
def specFirstOfShiftedMonth (now : Instant) (k : Int) : Int :=
  goDate (yearOf now) (monthOf now + k) 1 0

/-- Spec model, §4.3: "last instant of previous month" — one time unit
before the first day of the current month. -/
def specLastInstantOfPrevMonth (now : Instant) : Int :=
  specFirstOfShiftedMonth now 0 - 1

/-- `pat` is a prefix of `s` (over character lists). -/
def startsWithL : List Char → List Char → Bool
  | [], _ => true
  | _ :: _, [] => false
  | p :: ps, c :: cs => p == c && startsWithL ps cs

/-- `pat` occurs as a contiguous substring of `s` (over character lists);
used to state that a title does or does not embed a given label. -/
def occursIn : List Char → List Char → Bool
  | pat, [] => startsWithL pat []
  | pat, c :: cs => startsWithL pat (c :: cs) || occursIn pat cs

/-! ## Calendar correctness -/

/-- Recovery of the year-of-era and day-of-year by the
century/quadrennium/year cascade of `civilFromDays`, for any valid
decomposition `yoe = 100q + 4u + s` and day-of-year `K` (valid means: `K` is
a real day of that year — `K = 365` only in a leap position). -/
theorem cascade_recovery (q u s K : Int) (hq : 0 ≤ q ∧ q ≤ 3) (hu : 0 ≤ u ∧ u ≤ 24)
    (hs : 0 ≤ s ∧ s ≤ 3) (hK : 0 ≤ K ∧ K ≤ 365)
    (hvalid : K ≤ 364 ∨ (s = 3 ∧ (u ≤ 23 ∨ q = 3))) :
    (100 * min ((36524 * q + 1461 * u + 365 * s + K) / 36524) 3
      + 4 * ((36524 * q + 1461 * u + 365 * s + K
              - 36524 * min ((36524 * q + 1461 * u + 365 * s + K) / 36524) 3) / 1461)
      + min (((36524 * q + 1461 * u + 365 * s + K
              - 36524 * min ((36524 * q + 1461 * u + 365 * s + K) / 36524) 3) % 1461) / 365) 3
      = 100 * q + 4 * u + s)
    ∧ ((36524 * q + 1461 * u + 365 * s + K
        - 36524 * min ((36524 * q + 1461 * u + 365 * s + K) / 36524) 3) % 1461
       - 365 * min (((36524 * q + 1461 * u + 365 * s + K
              - 36524 * min ((36524 * q + 1461 * u + 365 * s + K) / 36524) 3) % 1461) / 365) 3
      = K) := by
  rcases hvalid with hv | ⟨hs3, hv⟩
  · have h1 : (36524 * q + 1461 * u + 365 * s + K) / 36524 = q := by omega
    have h2 : (36524 * q + 1461 * u + 365 * s + K
        - 36524 * min ((36524 * q + 1461 * u + 365 * s + K) / 36524) 3) / 1461 = u := by omega
    have h3 : (36524 * q + 1461 * u + 365 * s + K
        - 36524 * min ((36524 * q + 1461 * u + 365 * s + K) / 36524) 3) % 1461
        = 365 * s + K := by omega
    have h4 : (365 * s + K) / 365 = s := by omega
    omega
  · have hK365 : K = 365 ∨ K ≤ 364 := by omega
    rcases hK365 with h365 | h365
    · rcases hv with hu23 | hq3
      · have h1 : (36524 * q + 1461 * u + 365 * s + K) / 36524 = q := by omega
        have h2 : (36524 * q + 1461 * u + 365 * s + K
            - 36524 * min ((36524 * q + 1461 * u + 365 * s + K) / 36524) 3) / 1461 = u := by omega
        have h3 : (36524 * q + 1461 * u + 365 * s + K
            - 36524 * min ((36524 * q + 1461 * u + 365 * s + K) / 36524) 3) % 1461
            = 365 * s + K := by omega
        omega
      · have hu24 : u = 24 ∨ u ≤ 23 := by omega
        rcases hu24 with h24 | h24
        · subst hq3 hs3 h365 h24; decide
        · have h1 : (36524 * q + 1461 * u + 365 * s + K) / 36524 = q := by omega
          have h2 : (36524 * q + 1461 * u + 365 * s + K
              - 36524 * min ((36524 * q + 1461 * u + 365 * s + K) / 36524) 3) / 1461 = u := by omega
          have h3 : (36524 * q + 1461 * u + 365 * s + K
              - 36524 * min ((36524 * q + 1461 * u + 365 * s + K) / 36524) 3) % 1461
              = 365 * s + K := by omega
          omega
    · have h1 : (36524 * q + 1461 * u + 365 * s + K) / 36524 = q := by omega
      have h2 : (36524 * q + 1461 * u + 365 * s + K
          - 36524 * min ((36524 * q + 1461 * u + 365 * s + K) / 36524) 3) / 1461 = u := by omega
      have h3 : (36524 * q + 1461 * u + 365 * s + K
          - 36524 * min ((36524 * q + 1461 * u + 365 * s + K) / 36524) 3) % 1461
          = 365 * s + K := by omega
      have h4 : (365 * s + K) / 365 = s := by omega
      omega

/-- `civilFromDays` inverts `daysFromCivil` at a valid civil date, stated with
the shifted year already decomposed into era / century / quadrennium / year. -/
theorem civil_rt_core (y m d era q u s : Int)
    (hy2 : (m ≤ 2 ∧ y - 1 = 400 * era + 100 * q + 4 * u + s)
      ∨ (3 ≤ m ∧ y = 400 * era + 100 * q + 4 * u + s))
    (hq : 0 ≤ q ∧ q ≤ 3) (hu : 0 ≤ u ∧ u ≤ 24) (hs : 0 ≤ s ∧ s ≤ 3)
    (hm : 1 ≤ m ∧ m ≤ 12) (hd : 1 ≤ d)
    (hdm : d ≤ (153 * ((m + 9) % 12 + 1) + 2) / 5 - (153 * ((m + 9) % 12) + 2) / 5)
    (hvalid : (153 * ((m + 9) % 12) + 2) / 5 + d - 1 ≤ 364
      ∨ ((153 * ((m + 9) % 12) + 2) / 5 + d - 1 = 365 ∧ s = 3 ∧ (u ≤ 23 ∨ q = 3))) :
    civilFromDays (daysFromCivil y m d) = (y, m, d) := by
  have hK0 : 0 ≤ (153 * ((m + 9) % 12) + 2) / 5 + d - 1 := by omega
  have hK365 : (153 * ((m + 9) % 12) + 2) / 5 + d - 1 ≤ 365 := by omega
  have hvalid2 : (153 * ((m + 9) % 12) + 2) / 5 + d - 1 ≤ 364 ∨ (s = 3 ∧ (u ≤ 23 ∨ q = 3)) := by
    omega
  have hdays : daysFromCivil y m d
      = era * 146097 + (36524 * q + 1461 * u + 365 * s
          + ((153 * ((m + 9) % 12) + 2) / 5 + d - 1)) - 719468 := by
    simp only [daysFromCivil]
    split_ifs with h2 <;> omega
  rw [hdays]
  simp only [civilFromDays]
  have hz : era * 146097 + (36524 * q + 1461 * u + 365 * s
        + ((153 * ((m + 9) % 12) + 2) / 5 + d - 1)) - 719468 + 719468
      = era * 146097 + (36524 * q + 1461 * u + 365 * s
        + ((153 * ((m + 9) % 12) + 2) / 5 + d - 1)) := by ring
  rw [hz]
  have hdiv : (era * 146097 + (36524 * q + 1461 * u + 365 * s
      + ((153 * ((m + 9) % 12) + 2) / 5 + d - 1))) / 146097 = era := by omega
  have hmod : (era * 146097 + (36524 * q + 1461 * u + 365 * s
      + ((153 * ((m + 9) % 12) + 2) / 5 + d - 1))) % 146097
      = 36524 * q + 1461 * u + 365 * s + ((153 * ((m + 9) % 12) + 2) / 5 + d - 1) := by
    omega
  rw [hdiv, hmod]
  obtain ⟨hA, hB⟩ := cascade_recovery q u s ((153 * ((m + 9) % 12) + 2) / 5 + d - 1)
    hq hu hs ⟨hK0, hK365⟩ hvalid2
  rw [hB, hA]
  have hmp : (5 * ((153 * ((m + 9) % 12) + 2) / 5 + d - 1) + 2) / 153 = (m + 9) % 12 := by
    omega
  rw [hmp]
  clear hdays hz hdiv hmod hA hB hvalid hvalid2 hK0 hK365 hdm hmp
  simp only [Prod.mk.injEq]
  split_ifs <;> omega

/-- `civilFromDays` inverts `daysFromCivil` at every valid civil date. -/
theorem civil_rt (y m d : Int) (hm : 1 ≤ m ∧ m ≤ 12) (hd1 : 1 ≤ d)
    (hd2 : d ≤ daysInMonth y m) :
    civilFromDays (daysFromCivil y m d) = (y, m, d) := by
  simp only [daysInMonth] at hd2
  obtain ⟨hma, hmb⟩ := hm
  have hdm : d ≤ (153 * ((m + 9) % 12 + 1) + 2) / 5 - (153 * ((m + 9) % 12) + 2) / 5 := by
    split_ifs at hd2 <;> interval_cases m <;> omega
  have hm : 1 ≤ m ∧ m ≤ 12 := ⟨hma, hmb⟩
  by_cases hm2 : m ≤ 2
  · refine civil_rt_core y m d ((y - 1) / 400) ((y - 1) % 400 / 100)
      ((y - 1) % 400 % 100 / 4) ((y - 1) % 400 % 4) (Or.inl ⟨hm2, by omega⟩)
      ⟨by omega, by omega⟩ ⟨by omega, by omega⟩ ⟨by omega, by omega⟩ hm hd1 hdm ?_
    split_ifs at hd2 with h1 hL
    · simp only [isLeapYear, Bool.and_eq_true, Bool.or_eq_true, decide_eq_true_eq] at hL
      omega
    · omega
    · omega
    · omega
  · refine civil_rt_core y m d (y / 400) (y % 400 / 100) (y % 400 % 100 / 4) (y % 400 % 4)
      (Or.inr ⟨by omega, by omega⟩) ⟨by omega, by omega⟩ ⟨by omega, by omega⟩
      ⟨by omega, by omega⟩ hm hd1 hdm ?_
    split_ifs at hd2 <;> omega

/-- Every month has at least 28 days. -/
theorem daysInMonth_pos (y m : Int) : 28 ≤ daysInMonth y m := by
  simp only [daysInMonth]
  split_ifs <;> omega

/-- The month component of `civilFromDays` is always in `[1, 12]`. -/
theorem civilFromDays_month_range (z : Int) :
    1 ≤ (civilFromDays z).2.1 ∧ (civilFromDays z).2.1 ≤ 12 := by
  simp only [civilFromDays]
  split_ifs <;> omega

/-- `goDate` at an in-range month is that month's first day boundary. -/
theorem goDate_id (y m : Int) (h1 : 1 ≤ m) (h2 : m ≤ 12) :
    goDate y m 1 0 = daysFromCivil y m 1 * nsPerDay := by
  have e3 : y + (m - 1) / 12 = y := by omega
  have e4 : (m - 1) % 12 + 1 = m := by omega
  simp only [goDate, e3, e4]
  ring

/-- `goDate` is invariant under pre-normalizing its month argument. -/
theorem goDate_norm (y m d ns : Int) :
    goDate y m d ns = goDate (y + (m - 1) / 12) ((m - 1) % 12 + 1) d ns := by
  have e1 : ((m - 1) % 12 + 1 - 1) / 12 = 0 := by omega
  have e2 : ((m - 1) % 12 + 1 - 1) % 12 = (m - 1) % 12 := by omega
  simp only [goDate, e1, e2, add_zero]

/-- Splitting an instant at a day boundary. -/
theorem dayOf_mk (dd r : Int) (h0 : 0 ≤ r) (h1 : r < nsPerDay) :
    dayOf (dd * nsPerDay + r) = dd ∧ nsOfDay (dd * nsPerDay + r) = r := by
  simp only [dayOf, nsOfDay, nsPerDay] at h1 ⊢
  omega

/-- Truncation fixes day boundaries. -/
theorem truncateDay_mul (dd : Int) : truncateDay (dd * nsPerDay) = dd * nsPerDay := by
  simp only [truncateDay, dayOf, nsPerDay]
  omega

/-- The calendar day before the first of a month is the last day of the
previous month. -/
theorem civil_prev_first (y m : Int) (h1 : 1 ≤ m) (h2 : m ≤ 12) :
    civilFromDays (daysFromCivil y m 1 - 1)
      = (if m = 1 then y - 1 else y, if m = 1 then 12 else m - 1,
         daysInMonth (if m = 1 then y - 1 else y) (if m = 1 then 12 else m - 1)) := by
  by_cases hm1 : m = 1
  · subst hm1
    have h31 : daysInMonth (y - 1) 12 = 31 := by norm_num [daysInMonth]
    have hone : daysFromCivil y 1 1 - 1 = daysFromCivil (y - 1) 12 31 := by
      simp only [daysFromCivil]
      norm_num
      omega
    show civilFromDays (daysFromCivil y 1 1 - 1) = (y - 1, 12, daysInMonth (y - 1) 12)
    rw [hone, h31]
    exact civil_rt (y - 1) 12 31 (by norm_num) (by norm_num) (le_of_eq h31.symm)
  · simp only [if_neg hm1]
    by_cases hm3 : m = 3
    · subst hm3
      norm_num
      have hd2 : daysFromCivil y 3 1 - 1 = daysFromCivil y 2 (daysInMonth y 2) := by
        by_cases hly : isLeapYear y = true
        · have h29 : daysInMonth y 2 = 29 := by simp [daysInMonth, hly]
          rw [h29]
          simp only [isLeapYear, Bool.and_eq_true, Bool.or_eq_true,
            decide_eq_true_eq] at hly
          simp only [daysFromCivil]
          norm_num
          omega
        · have h28 : daysInMonth y 2 = 28 := by simp [daysInMonth, hly]
          rw [h28]
          simp only [isLeapYear, Bool.and_eq_true, Bool.or_eq_true,
            decide_eq_true_eq] at hly
          simp only [daysFromCivil]
          norm_num
          omega
      rw [hd2]
      exact civil_rt y 2 (daysInMonth y 2) (by norm_num)
        (by have := daysInMonth_pos y 2; omega) le_rfl
    · have hmonth : daysInMonth y (m - 1)
          = (153 * ((m - 1 + 9) % 12 + 1) + 2) / 5 - (153 * ((m - 1 + 9) % 12) + 2) / 5 := by
        simp only [daysInMonth]
        split_ifs with ha hL hb
        · omega
        · omega
        · interval_cases m <;> omega
        · interval_cases m <;> omega
      have hd2 : daysFromCivil y m 1 - 1 = daysFromCivil y (m - 1) (daysInMonth y (m - 1)) := by
        rw [hmonth]
        simp only [daysFromCivil]
        split_ifs <;> interval_cases m <;> omega
      rw [hd2]
      exact civil_rt y (m - 1) (daysInMonth y (m - 1)) ⟨by omega, by omega⟩
        (by have := daysInMonth_pos y (m - 1); omega) le_rfl

/-- Calendar fields of an instant split at a day boundary. -/
theorem fields_of_split (dd r : Int) (h0 : 0 ≤ r) (h1 : r < nsPerDay) :
    yearOf (dd * nsPerDay + r) = (civilFromDays dd).1
    ∧ monthOf (dd * nsPerDay + r) = (civilFromDays dd).2.1
    ∧ domOf (dd * nsPerDay + r) = (civilFromDays dd).2.2
    ∧ nsOfDay (dd * nsPerDay + r) = r := by
  obtain ⟨hday, hns⟩ := dayOf_mk dd r h0 h1
  refine ⟨?_, ?_, ?_, hns⟩
  · show (civilFromDays (dayOf (dd * nsPerDay + r))).1 = _
    rw [hday]
  · show (civilFromDays (dayOf (dd * nsPerDay + r))).2.1 = _
    rw [hday]
  · show (civilFromDays (dayOf (dd * nsPerDay + r))).2.2 = _
    rw [hday]

/-- Calendar fields of a day boundary. -/
theorem fields_of_mul (dd : Int) :
    yearOf (dd * nsPerDay) = (civilFromDays dd).1
    ∧ monthOf (dd * nsPerDay) = (civilFromDays dd).2.1
    ∧ domOf (dd * nsPerDay) = (civilFromDays dd).2.2
    ∧ nsOfDay (dd * nsPerDay) = 0 := by
  have hday : dayOf (dd * nsPerDay) = dd := by
    simp only [dayOf, nsPerDay]
    omega
  have hns : nsOfDay (dd * nsPerDay) = 0 := by
    simp only [nsOfDay, nsPerDay]
    omega
  refine ⟨?_, ?_, ?_, hns⟩
  · show (civilFromDays (dayOf (dd * nsPerDay))).1 = _
    rw [hday]
  · show (civilFromDays (dayOf (dd * nsPerDay))).2.1 = _
    rw [hday]
  · show (civilFromDays (dayOf (dd * nsPerDay))).2.2 = _
    rw [hday]

/-- The `3months` window start computed by the code equals the spec's "first
day of the month two months before the current month". -/
theorem threeMonths_from_eq (now : Instant) :
    truncateDay (addDate (goDate (yearOf now) (monthOf now) 1 0) 0 (-2) 0)
      = specFirstOfShiftedMonth now (-2) := by
  have hM : 1 ≤ monthOf now ∧ monthOf now ≤ 12 := civilFromDays_month_range (dayOf now)
  have hrt := civil_rt (yearOf now) (monthOf now) 1 hM (by norm_num)
    (by have := daysInMonth_pos (yearOf now) (monthOf now); omega)
  rw [goDate_id (yearOf now) (monthOf now) hM.1 hM.2]
  obtain ⟨f1, f2, f3, f4⟩ := fields_of_mul (daysFromCivil (yearOf now) (monthOf now) 1)
  rw [hrt] at f1 f2 f3
  simp only [addDate, f1, f2, f3, f4, specFirstOfShiftedMonth, add_zero]
  have hflat : goDate (yearOf now) (monthOf now + -2) 1 0
      = daysFromCivil (yearOf now + (monthOf now + -2 - 1) / 12)
          ((monthOf now + -2 - 1) % 12 + 1) 1 * nsPerDay := by
    simp only [goDate]
    ring
  rw [hflat, truncateDay_mul]

/-- The `lastmonth` window start computed by the code equals the spec's "first
day of the previous month". -/
theorem lastmonth_from_eq (now : Instant) :
    goDate (yearOf (goDate (yearOf now) (monthOf now) 1 0 - 1))
           (monthOf (goDate (yearOf now) (monthOf now) 1 0 - 1)) 1 0
      = specFirstOfShiftedMonth now (-1) := by
  have hM : 1 ≤ monthOf now ∧ monthOf now ≤ 12 := civilFromDays_month_range (dayOf now)
  rw [goDate_id (yearOf now) (monthOf now) hM.1 hM.2]
  have hsplit : daysFromCivil (yearOf now) (monthOf now) 1 * nsPerDay - 1
      = (daysFromCivil (yearOf now) (monthOf now) 1 - 1) * nsPerDay + (nsPerDay - 1) := by
    ring
  rw [hsplit]
  obtain ⟨g1, g2, g3, g4⟩ := fields_of_split (daysFromCivil (yearOf now) (monthOf now) 1 - 1)
    (nsPerDay - 1) (by norm_num [nsPerDay]) (by norm_num [nsPerDay])
  have hprev := civil_prev_first (yearOf now) (monthOf now) hM.1 hM.2
  rw [hprev] at g1 g2
  rw [g1, g2]
  have hYc : (if monthOf now = 1 then yearOf now - 1 else yearOf now)
      = yearOf now + (monthOf now + -1 - 1) / 12 := by
    split_ifs <;> omega
  have hMc : (if monthOf now = 1 then 12 else monthOf now - 1)
      = (monthOf now + -1 - 1) % 12 + 1 := by
    split_ifs <;> omega
  rw [hYc, hMc]
  simp only [specFirstOfShiftedMonth]
  exact (goDate_norm (yearOf now) (monthOf now + -1) 1 0).symm

/-- C3: For every period symbol, `resolveDateRange` with a fixed `now` returns
exactly the window in the spec's table — `7days`: current end of day minus 6
days truncated to day start, through current end of day; `30days`: the same
with 29 days; `3months`: first day of the month two months before the current
month, through current end of day; `currentmonth`: first day of the current
month, through current end of day; `lastmonth`: first day through last
instant of the previous month — and every other (non-empty) symbol fails
with `InvalidPeriod`.  In particular `{period: "currentmonth"}` issued on
2024-03-15 yields from = 2024-03-01T00:00:00 and
to = 2024-03-15T23:59:59.999999999. -/
theorem C3_resolve_period_table (now : Instant) :
    (resolveDateRange now ⟨none, none, some "7days"⟩
      = .ok (specDayStart (specMinusDays (specEndOfDay now) 6), specEndOfDay now))
    ∧ (resolveDateRange now ⟨none, none, some "30days"⟩
      = .ok (specDayStart (specMinusDays (specEndOfDay now) 29), specEndOfDay now))
    ∧ (resolveDateRange now ⟨none, none, some "3months"⟩
      = .ok (specFirstOfShiftedMonth now (-2), specEndOfDay now))
    ∧ (resolveDateRange now ⟨none, none, some "currentmonth"⟩
      = .ok (specFirstOfShiftedMonth now 0, specEndOfDay now))
    ∧ (resolveDateRange now ⟨none, none, some "lastmonth"⟩
      = .ok (specFirstOfShiftedMonth now (-1), specLastInstantOfPrevMonth now))
    ∧ (∀ p : String, p ≠ "" → p ≠ "7days" → p ≠ "30days" → p ≠ "3months" →
        p ≠ "currentmonth" → p ≠ "lastmonth" →
        resolveDateRange now ⟨none, none, some p⟩ = .error .invalidPeriod)
    ∧ resolveDateRange (goDate 2024 3 15 43200000000000) ⟨none, none, some "currentmonth"⟩
      = .ok (goDate 2024 3 1 0, goDate 2024 3 15 (nsPerDay - 1)) := by
  refine ⟨rfl, rfl, ?_, ?_, ?_, ?_, by rfl⟩
  · rw [← threeMonths_from_eq now]
    rfl
  · have h0 : specFirstOfShiftedMonth now 0 = goDate (yearOf now) (monthOf now) 1 0 := by
      simp only [specFirstOfShiftedMonth, add_zero]
    rw [h0]
    rfl
  · have hlast : specLastInstantOfPrevMonth now
        = goDate (yearOf now) (monthOf now) 1 0 - 1 := by
      simp only [specLastInstantOfPrevMonth, specFirstOfShiftedMonth, add_zero]
    rw [hlast, ← lastmonth_from_eq now]
    rfl
  · intro p h0 h1 h2 h3 h4 h5
    simp [resolveDateRange, h0, h1, h2, h3, h4, h5]

/-- C3 witness: the unknown symbol "weekly" is rejected at a concrete `now`. -/
theorem C3_resolve_period_table_witness :
    resolveDateRange (goDate 2024 3 15 43200000000000) ⟨none, none, some "weekly"⟩
      = .error .invalidPeriod :=
  (C3_resolve_period_table (goDate 2024 3 15 43200000000000)).2.2.2.2.2.1 "weekly"
    (by decide) (by decide) (by decide) (by decide) (by decide) (by decide)

/-- C4: `validateDateRange` rejects exactly — and each in isolation — an
inverted window (`InvertedRange`), a `to` strictly after the current
end-of-day (`FutureDate`), and a `from` older than now minus `maxMonths`
months (`WindowTooWide`); a window passing all checks is accepted unchanged
(the validator returns no data, and the pipeline fetches the resolved pair —
see the pipeline theorems).  In particular `{from_date: 2023-01-01, to_date:
2023-01-31}` with `maxMonths = 6` at now = 2024-01-01 fails with
`WindowTooWide`. -/
theorem C4_validate_window (now : Instant) (maxMonths fromDate toDate : Int) :
    (validateDateRange now maxMonths fromDate toDate = .error .invertedRange
      ↔ toDate < fromDate)
    ∧ (validateDateRange now maxMonths fromDate toDate = .error .futureDate
      ↔ fromDate ≤ toDate ∧ specEndOfDay now < toDate)
    ∧ (validateDateRange now maxMonths fromDate toDate = .error .windowTooWide
      ↔ fromDate ≤ toDate ∧ toDate ≤ specEndOfDay now
        ∧ truncateDay fromDate < addDate (truncateDay now) 0 (-maxMonths) 0)
    ∧ (validateDateRange now maxMonths fromDate toDate = .ok ()
      ↔ fromDate ≤ toDate ∧ toDate ≤ specEndOfDay now
        ∧ addDate (truncateDay now) 0 (-maxMonths) 0 ≤ truncateDay fromDate)
    ∧ validateDateRange (goDate 2024 1 1 0) 6 (goDate 2023 1 1 0)
        (goDate 2023 1 31 (nsPerDay - 1)) = .error .windowTooWide := by
  refine ⟨?_, ?_, ?_, ?_, by rfl⟩ <;>
    · simp only [validateDateRange, specEndOfDay]
      split_ifs <;> simp_all

/-- C5: with no period symbol, an explicit pair of present non-zero dates is
resolved to `from` truncated to its day start and `to` advanced to its last
instant, a year before 1900 gives `InvalidDate`, and present-but-zero dates
give `MissingDateRange`; however a request with an absent (`nil`) date
pointer does NOT give `MissingDateRange` — `resolveDateRange` dereferences
the nil pointer (`request.FromDate.IsZero()` / `request.ToDate.IsZero()`)
and panics, modelled by `ResolveErr.nilDeref`. -/
theorem C5_explicit_dates (now : Instant) :
    (∀ f t : Int, resolveDateRange now ⟨some f, some t, none⟩
      = (if f = goZeroTime ∨ t = goZeroTime then .error .missingDateRange
         else if yearOf f < 1900 ∨ yearOf t < 1900 then .error .invalidDate
         else .ok (truncateDay f, truncateDay t + (nsPerDay - 1))))
    ∧ (resolveDateRange now ⟨none, none, none⟩ = .error .nilDeref)
    ∧ (∀ f : Int, f ≠ goZeroTime →
        resolveDateRange now ⟨some f, none, none⟩ = .error .nilDeref)
    ∧ (resolveDateRange now ⟨some goZeroTime, none, none⟩ = .error .missingDateRange)
    ∧ (∀ t : Int, resolveDateRange now ⟨none, some t, none⟩ = .error .nilDeref) := by
  refine ⟨?_, rfl, ?_, ?_, fun t => rfl⟩
  · intro f t
    simp only [resolveDateRange, resolveExplicit]
    split_ifs <;> first | rfl | (exfalso; tauto)
  · intro f hf
    simp only [resolveDateRange, resolveExplicit]
    rw [if_neg hf]
  · rfl

/-- C5 witness: a nil `toDate` pointer with a real `fromDate` panics. -/
theorem C5_explicit_dates_witness :
    goDate 2024 1 1 0 ≠ goZeroTime
    ∧ resolveDateRange (goDate 2024 3 15 0) ⟨some (goDate 2024 1 1 0), none, none⟩
      = .error .nilDeref :=
  ⟨by decide, (C5_explicit_dates (goDate 2024 3 15 0)).2.2.1 (goDate 2024 1 1 0) (by decide)⟩

/-! ## Pipeline structure -/

/-- The view entry point ignores the fields of the environment that model
collaborators it never consults for the given aspect. -/
theorem getData_congr (e₁ e₂ : PipelineEnv) (u d : Int) (req : DateRangeRequest)
    (h1 : e₁.now = e₂.now) (h2 : e₁.maxMonths = e₂.maxMonths)
    (h3 : e₁.logAccessResult = e₂.logAccessResult)
    (h4 : e₁.fetchResult = e₂.fetchResult) :
    getInventoryReportData e₁ u d req = getInventoryReportData e₂ u d req := by
  simp only [getInventoryReportData, h1, h2, h3, h4]

/-- Likewise for the export entry point. -/
theorem export_congr (e₁ e₂ : PipelineEnv) (u d : Int) (req : DateRangeRequest)
    (h1 : e₁.now = e₂.now) (h2 : e₁.maxMonths = e₂.maxMonths)
    (h3 : e₁.logAccessResult = e₂.logAccessResult)
    (h4 : e₁.fetchResult = e₂.fetchResult)
    (h5 : e₁.renderResult = e₂.renderResult) :
    exportInventoryReport e₁ u d req = exportInventoryReport e₂ u d req := by
  simp only [exportInventoryReport, h1, h2, h3, h4, h5]

/-- The view result does not depend on the audit-record creation outcome. -/
theorem getData_fst_eq (env : PipelineEnv) (u d : Int) (req : DateRangeRequest)
    (r : Except Unit Int) :
    (getInventoryReportData {env with logAccessResult := r} u d req).1
      = (getInventoryReportData env u d req).1 := by
  simp only [getInventoryReportData]
  rcases hres : resolveDateRange env.now req with e | ⟨f, t⟩ <;> simp only [hres]
  rcases hval : validateDateRange env.now env.maxMonths f t with e | v <;> simp only [hval]
  rcases hfetch : env.fetchResult with e2 | items <;> simp only [hfetch]
  split <;> rfl

/-- The export result does not depend on the audit-record creation outcome. -/
theorem export_fst_eq (env : PipelineEnv) (u d : Int) (req : DateRangeRequest)
    (r : Except Unit Int) :
    (exportInventoryReport {env with logAccessResult := r} u d req).1
      = (exportInventoryReport env u d req).1 := by
  simp only [exportInventoryReport]
  rcases hres : resolveDateRange env.now req with e | ⟨f, t⟩ <;> simp only [hres]
  rcases hval : validateDateRange env.now env.maxMonths f t with e | v <;> simp only [hval]
  rcases hfetch : env.fetchResult with e2 | items <;> simp only [hfetch]
  split
  · rfl
  · rcases hrender : env.renderResult with e3 | fname <;> simp only [hrender]

/-- Exhaustive shape of one view run: either resolution or validation fails
with an empty trace, or the trace is the audit write, then the fetch, then
the (at most one) finalize attempt. -/
theorem getData_cases (env : PipelineEnv) (u d : Int) (req : DateRangeRequest) :
    (∃ e, resolveDateRange env.now req = .error e
      ∧ getInventoryReportData env u d req = (.error (.resolve e), []))
    ∨ (∃ f t e, resolveDateRange env.now req = .ok (f, t)
      ∧ validateDateRange env.now env.maxMonths f t = .error e
      ∧ getInventoryReportData env u d req = (.error (.validate e), []))
    ∨ (∃ f t res status, resolveDateRange env.now req = .ok (f, t)
      ∧ validateDateRange env.now env.maxMonths f t = .ok ()
      ∧ getInventoryReportData env u d req
        = (res, .logAccess u 1 "pending" :: .fetch f t d
            :: updateLogStatus (logIDof env.logAccessResult) status)) := by
  rcases hres : resolveDateRange env.now req with e | ⟨f, t⟩
  · exact Or.inl ⟨e, rfl, by simp [getInventoryReportData, hres]⟩
  · rcases hval : validateDateRange env.now env.maxMonths f t with e | v
    · exact Or.inr (Or.inl ⟨f, t, e, rfl, hval, by simp [getInventoryReportData, hres, hval]⟩)
    · rcases hfetch : env.fetchResult with e2 | items
      · exact Or.inr (Or.inr ⟨f, t, .error .dataSource, "error", rfl, hval,
          by simp [getInventoryReportData, hres, hval, hfetch]⟩)
      · by_cases hempty : items.isEmpty
        · exact Or.inr (Or.inr ⟨f, t, .ok [], "success", rfl, hval,
            by simp [getInventoryReportData, hres, hval, hfetch, hempty]⟩)
        · exact Or.inr (Or.inr ⟨f, t, .ok items, "success", rfl, hval,
            by simp [getInventoryReportData, hres, hval, hfetch, hempty]⟩)

/-- Exhaustive shape of one export run. -/
theorem export_cases (env : PipelineEnv) (u d : Int) (req : DateRangeRequest) :
    (∃ e, resolveDateRange env.now req = .error e
      ∧ exportInventoryReport env u d req = (.error (.resolve e), []))
    ∨ (∃ f t e, resolveDateRange env.now req = .ok (f, t)
      ∧ validateDateRange env.now env.maxMonths f t = .error e
      ∧ exportInventoryReport env u d req = (.error (.validate e), []))
    ∨ (∃ f t res status mid, resolveDateRange env.now req = .ok (f, t)
      ∧ validateDateRange env.now env.maxMonths f t = .ok ()
      ∧ exportInventoryReport env u d req
        = (res, .logAccess u 2 "pending" :: .fetch f t d
            :: (mid ++ updateLogStatus (logIDof env.logAccessResult) status))
      ∧ (mid = [] ∨ ∃ ti, mid = [.render ti])) := by
  rcases hres : resolveDateRange env.now req with e | ⟨f, t⟩
  · exact Or.inl ⟨e, rfl, by simp [exportInventoryReport, hres]⟩
  · rcases hval : validateDateRange env.now env.maxMonths f t with e | v
    · exact Or.inr (Or.inl ⟨f, t, e, rfl, hval, by simp [exportInventoryReport, hres, hval]⟩)
    · rcases hfetch : env.fetchResult with e2 | items
      · exact Or.inr (Or.inr ⟨f, t, .error .dataSource, "error", [], rfl, hval,
          by simp [exportInventoryReport, hres, hval, hfetch], Or.inl rfl⟩)
      · by_cases hempty : items.isEmpty
        · exact Or.inr (Or.inr ⟨f, t, .error .noData, "success", [], rfl, hval,
            by simp [exportInventoryReport, hres, hval, hfetch, hempty], Or.inl rfl⟩)
        · rcases hrender : env.renderResult with e3 | fname
          · exact Or.inr (Or.inr ⟨f, t, .error .render, "error",
              [.render (exportTitle f t)], rfl, hval,
              by simp [exportInventoryReport, hres, hval, hfetch, hempty, hrender],
              Or.inr ⟨exportTitle f t, rfl⟩⟩)
          · exact Or.inr (Or.inr ⟨f, t, .ok ⟨exportTitle f t, fname⟩, "success",
              [.render (exportTitle f t)], rfl, hval,
              by simp [exportInventoryReport, hres, hval, hfetch, hempty, hrender],
              Or.inr ⟨exportTitle f t, rfl⟩⟩)

/-- The finalize helper emits either nothing (sentinel) or exactly one
status-update attempt. -/
theorem updateLogStatus_events (lid : Int) (s : String) :
    updateLogStatus lid s = [] ∨ updateLogStatus lid s = [.updateLog lid s] := by
  simp only [updateLogStatus]
  split_ifs
  · exact Or.inl rfl
  · exact Or.inr rfl

/-- At most one finalize attempt is ever produced. -/
theorem updateLogStatus_count (lid : Int) (s : String) :
    (updateLogStatus lid s).countP (fun e => e.isUpdateLog) ≤ 1 := by
  rcases updateLogStatus_events lid s with h | h <;> rw [h] <;>
    simp [List.countP_cons, PipeEvent.isUpdateLog]

/-- C1 (amended): every invocation of either report entry point passes
through window resolution and then an Access Auditor write before rows are
fetched — whenever report data is produced, resolution and validation
succeeded and the trace begins with the audit-record write followed by the
fetch — but NO Permission Graph authorization query occurs anywhere in
either entry point: the report service never calls the access check, and the
report routes mount only the JWT middleware. -/
theorem C1_pipeline_stages (env : PipelineEnv) (u d : Int) (req : DateRangeRequest) :
    ((getInventoryReportData env u d req).2.all fun e => !e.isAuthQuery) = true
    ∧ ((exportInventoryReport env u d req).2.all fun e => !e.isAuthQuery) = true
    ∧ ((getInventoryReportData env u d req).1.isOk = true →
        ∃ f t rest, resolveDateRange env.now req = .ok (f, t)
          ∧ validateDateRange env.now env.maxMonths f t = .ok ()
          ∧ (getInventoryReportData env u d req).2
            = .logAccess u 1 "pending" :: .fetch f t d :: rest)
    ∧ ((exportInventoryReport env u d req).1.isOk = true →
        ∃ f t rest, resolveDateRange env.now req = .ok (f, t)
          ∧ validateDateRange env.now env.maxMonths f t = .ok ()
          ∧ (exportInventoryReport env u d req).2
            = .logAccess u 2 "pending" :: .fetch f t d :: rest) := by
  refine ⟨?_, ?_, ?_, ?_⟩
  · rcases getData_cases env u d req with ⟨e, _, heq⟩ | ⟨f, t, e, _, _, heq⟩
      | ⟨f, t, res, status, _, _, heq⟩
    · rw [heq]; rfl
    · rw [heq]; rfl
    · rcases updateLogStatus_events (logIDof env.logAccessResult) status with h | h <;>
        rw [heq, h] <;> simp [PipeEvent.isAuthQuery]
  · rcases export_cases env u d req with ⟨e, _, heq⟩ | ⟨f, t, e, _, _, heq⟩
      | ⟨f, t, res, status, mid, _, _, heq, hmid⟩
    · rw [heq]; rfl
    · rw [heq]; rfl
    · rcases updateLogStatus_events (logIDof env.logAccessResult) status with h | h <;>
        rcases hmid with rfl | ⟨ti, rfl⟩ <;>
        rw [heq, h] <;> simp [PipeEvent.isAuthQuery]
  · rcases getData_cases env u d req with ⟨e, _, heq⟩ | ⟨f, t, e, _, _, heq⟩
      | ⟨f, t, res, status, h1, h2, heq⟩ <;> rw [heq] <;> intro hok
    · simp [Except.isOk, Except.toBool] at hok
    · simp [Except.isOk, Except.toBool] at hok
    · exact ⟨f, t, updateLogStatus (logIDof env.logAccessResult) status, h1, h2, rfl⟩
  · rcases export_cases env u d req with ⟨e, _, heq⟩ | ⟨f, t, e, _, _, heq⟩
      | ⟨f, t, res, status, mid, h1, h2, heq, hmid⟩ <;> rw [heq] <;> intro hok
    · simp [Except.isOk, Except.toBool] at hok
    · simp [Except.isOk, Except.toBool] at hok
    · exact ⟨f, t, mid ++ updateLogStatus (logIDof env.logAccessResult) status, h1, h2, rfl⟩

/-- C1 counterexample: a concrete run of the view entry point returns report
rows while its trace contains no Permission Graph query — the claim that "no
caller can obtain report data without the authorization query occurring" is
false of the code. -/
theorem C1_counterexample :
    (getInventoryReportData
        ⟨goDate 2024 3 15 0, 6, .ok 7,
         .ok [⟨"01/03/2024", "SO-1", "ACME", "VND", "1,000", "D-1", "INV-9", ""⟩],
         .ok "report.xlsx", false⟩ 42 5 ⟨none, none, some "7days"⟩).1
      = .ok [⟨"01/03/2024", "SO-1", "ACME", "VND", "1,000", "D-1", "INV-9", ""⟩]
    ∧ ((getInventoryReportData
        ⟨goDate 2024 3 15 0, 6, .ok 7,
         .ok [⟨"01/03/2024", "SO-1", "ACME", "VND", "1,000", "D-1", "INV-9", ""⟩],
         .ok "report.xlsx", false⟩ 42 5 ⟨none, none, some "7days"⟩).2.all
        fun e => !e.isAuthQuery) = true :=
  ⟨rfl, rfl⟩

/-- C1 witness: the ordering conjuncts at a concrete successful run. -/
theorem C1_pipeline_stages_witness :
    ∃ f t rest,
      resolveDateRange (goDate 2024 3 15 0) ⟨none, none, some "7days"⟩ = .ok (f, t)
      ∧ validateDateRange (goDate 2024 3 15 0) 6 f t = .ok ()
      ∧ (getInventoryReportData
          ⟨goDate 2024 3 15 0, 6, .ok 7,
           .ok [⟨"01/03/2024", "SO-1", "ACME", "VND", "1,000", "D-1", "INV-9", ""⟩],
           .ok "report.xlsx", false⟩ 42 5 ⟨none, none, some "7days"⟩).2
        = .logAccess 42 1 "pending" :: .fetch f t 5 :: rest :=
  (C1_pipeline_stages
    ⟨goDate 2024 3 15 0, 6, .ok 7,
     .ok [⟨"01/03/2024", "SO-1", "ACME", "VND", "1,000", "D-1", "INV-9", ""⟩],
     .ok "report.xlsx", false⟩ 42 5 ⟨none, none, some "7days"⟩).2.2.1 (by decide)

/-- C6: when the data source returns zero rows for a validated window, the
view entry point finalizes the audit record as `success` and returns an
empty row sequence with no error, while the export entry point finalizes
the audit record as `success` but returns the distinguished `NoData`
failure, never rendering any artifact. -/
theorem C6_empty_result (env : PipelineEnv) (userID departmentID lid : Int)
    (req : DateRangeRequest) (f t : Instant)
    (hres : resolveDateRange env.now req = .ok (f, t))
    (hval : validateDateRange env.now env.maxMonths f t = .ok ())
    (hlog : env.logAccessResult = .ok lid) (hpos : 0 < lid)
    (hfetch : env.fetchResult = .ok []) :
    getInventoryReportData env userID departmentID req
      = (.ok [], [.logAccess userID 1 "pending", .fetch f t departmentID,
                  .updateLog lid "success"])
    ∧ exportInventoryReport env userID departmentID req
      = (.error .noData, [.logAccess userID 2 "pending", .fetch f t departmentID,
                          .updateLog lid "success"]) := by
  have hnot : ¬ lid ≤ 0 := by omega
  constructor
  · simp [getInventoryReportData, hres, hval, hfetch, hlog, logIDof, updateLogStatus, hnot]
  · simp [exportInventoryReport, hres, hval, hfetch, hlog, logIDof, updateLogStatus, hnot]

/-- C6 witness: a concrete empty-result run of both entry points. -/
theorem C6_empty_result_witness :
    resolveDateRange (goDate 2024 3 15 0) ⟨none, none, some "7days"⟩
        = .ok (goDate 2024 3 9 0, goDate 2024 3 15 (nsPerDay - 1))
    ∧ validateDateRange (goDate 2024 3 15 0) 6 (goDate 2024 3 9 0)
        (goDate 2024 3 15 (nsPerDay - 1)) = .ok ()
    ∧ getInventoryReportData ⟨goDate 2024 3 15 0, 6, .ok 7, .ok [], .ok "r.xlsx", false⟩
        42 5 ⟨none, none, some "7days"⟩
      = (.ok [], [.logAccess 42 1 "pending",
                  .fetch (goDate 2024 3 9 0) (goDate 2024 3 15 (nsPerDay - 1)) 5,
                  .updateLog 7 "success"])
    ∧ exportInventoryReport ⟨goDate 2024 3 15 0, 6, .ok 7, .ok [], .ok "r.xlsx", false⟩
        42 5 ⟨none, none, some "7days"⟩
      = (.error .noData, [.logAccess 42 2 "pending",
                          .fetch (goDate 2024 3 9 0) (goDate 2024 3 15 (nsPerDay - 1)) 5,
                          .updateLog 7 "success"]) := by
  have h := C6_empty_result ⟨goDate 2024 3 15 0, 6, .ok 7, .ok [], .ok "r.xlsx", false⟩
    42 5 7 ⟨none, none, some "7days"⟩ (goDate 2024 3 9 0) (goDate 2024 3 15 (nsPerDay - 1))
    (by rfl) (by rfl) rfl (by norm_num) rfl
  exact ⟨by rfl, by rfl, h.1, h.2⟩

/-- C7: audit writes are best-effort and never abort the guarded action —
the audit-record creation failure leaves the sentinel log id 0 and does not
change either entry point's result; the status update is a no-op at the
sentinel, attempts at most one write per run otherwise, and its own failure
(`updateLogFails`) is invisible to the caller. -/
theorem C7_audit_best_effort (env : PipelineEnv) (u d : Int) (req : DateRangeRequest) :
    logIDof (.error ()) = 0
    ∧ (∀ lid s, lid ≤ 0 → updateLogStatus lid s = [])
    ∧ (∀ lid s, 0 < lid → updateLogStatus lid s = [.updateLog lid s])
    ∧ (∀ r : Except Unit Int,
        (getInventoryReportData {env with logAccessResult := r} u d req).1
          = (getInventoryReportData env u d req).1)
    ∧ (∀ r : Except Unit Int,
        (exportInventoryReport {env with logAccessResult := r} u d req).1
          = (exportInventoryReport env u d req).1)
    ∧ (getInventoryReportData env u d req).2.countP (fun e => e.isUpdateLog) ≤ 1
    ∧ (exportInventoryReport env u d req).2.countP (fun e => e.isUpdateLog) ≤ 1
    ∧ (∀ b, getInventoryReportData {env with updateLogFails := b} u d req
        = getInventoryReportData env u d req)
    ∧ (∀ b, exportInventoryReport {env with updateLogFails := b} u d req
        = exportInventoryReport env u d req) := by
  refine ⟨rfl, ?_, ?_, ?_, ?_, ?_, ?_, ?_, ?_⟩
  · intro lid s h
    simp [updateLogStatus, h]
  · intro lid s h
    simp only [updateLogStatus]
    rw [if_neg (by omega)]
  · exact fun r => getData_fst_eq env u d req r
  · exact fun r => export_fst_eq env u d req r
  · rcases getData_cases env u d req with ⟨e, _, heq⟩ | ⟨f, t, e, _, _, heq⟩
      | ⟨f, t, res, status, _, _, heq⟩
    · rw [heq]; simp
    · rw [heq]; simp
    · rcases updateLogStatus_events (logIDof env.logAccessResult) status with h | h <;>
        rw [heq, h] <;> simp [List.countP_cons, PipeEvent.isUpdateLog]
  · rcases export_cases env u d req with ⟨e, _, heq⟩ | ⟨f, t, e, _, _, heq⟩
      | ⟨f, t, res, status, mid, _, _, heq, hmid⟩
    · rw [heq]; simp
    · rw [heq]; simp
    · rcases updateLogStatus_events (logIDof env.logAccessResult) status with h | h <;>
        rcases hmid with rfl | ⟨ti, rfl⟩ <;>
        rw [heq, h] <;> simp [List.countP_cons, PipeEvent.isUpdateLog]
  · exact fun b => getData_congr _ env u d req rfl rfl rfl rfl
  · exact fun b => export_congr _ env u d req rfl rfl rfl rfl rfl

/-- C7 witness: with a failing `LogAccess`, a concrete run still returns its
rows, performs no finalize attempt, and the status-update helper behaves as
claimed at the sentinel. -/
theorem C7_audit_best_effort_witness :
    updateLogStatus 0 "success" = []
    ∧ updateLogStatus 7 "success" = [.updateLog 7 "success"]
    ∧ (getInventoryReportData
        ⟨goDate 2024 3 15 0, 6, .error (), .ok [], .ok "r.xlsx", false⟩
        42 5 ⟨none, none, some "7days"⟩).1
      = (getInventoryReportData
        ⟨goDate 2024 3 15 0, 6, .ok 9, .ok [], .ok "r.xlsx", false⟩
        42 5 ⟨none, none, some "7days"⟩).1 := by
  have h := C7_audit_best_effort
    ⟨goDate 2024 3 15 0, 6, .ok 9, .ok [], .ok "r.xlsx", false⟩
    42 5 ⟨none, none, some "7days"⟩
  exact ⟨h.2.1 0 "success" (by norm_num), h.2.2.1 7 "success" (by norm_num),
    h.2.2.2.1 (.error ())⟩

/-! ## Permission graph -/

/-- The permission query is true exactly when some role assigned to the user
carries an enabled grant to the operation. -/
theorem checkUserOperationAccess_iff (db : AuthDB) (userID opID : Int) :
    CheckUserOperationAccess db userID opID = true
      ↔ ∃ roleID, (userID, roleID) ∈ db.userRoles
          ∧ (roleID, opID, true) ∈ db.roleOperations := by
  simp only [CheckUserOperationAccess, decide_eq_true_eq]
  constructor
  · intro h
    obtain ⟨x, hx⟩ := List.exists_mem_of_ne_nil _ (List.length_pos.mp h)
    obtain ⟨ur, hur, hx2⟩ := List.mem_flatMap.mp hx
    obtain ⟨ro, hro, hx3⟩ := List.mem_map.mp hx2
    obtain ⟨hro1, hro2⟩ := List.mem_filter.mp hro
    simp only [grantMatches, Bool.and_eq_true, beq_iff_eq] at hro2
    obtain ⟨⟨⟨h1, h2⟩, h3⟩, h4⟩ := hro2
    refine ⟨ur.2, ?_, ?_⟩
    · have h5 : ur = (userID, ur.2) := by
        rw [← h1]
      rw [← h5]
      exact hur
    · have : ro = (ur.2, opID, true) := by
        obtain ⟨a, b, c⟩ := ro
        simp_all
      rw [← this]
      exact hro1
  · rintro ⟨roleID, hur, hro⟩
    have hmem : ((userID, roleID), (roleID, opID, true)) ∈ joinRows db userID opID := by
      refine List.mem_flatMap.mpr ⟨(userID, roleID), hur, ?_⟩
      refine List.mem_map.mpr ⟨(roleID, opID, true), ?_, rfl⟩
      refine List.mem_filter.mpr ⟨hro, ?_⟩
      simp [grantMatches]
    exact List.length_pos.mpr (List.ne_nil_of_mem hmem)

/-- C2: for every user and every operation code that resolves to an operation
id, `CheckUserAccess` answers `true` iff some Role assigned to the user has a
Grant to that operation id with its can-access flag true (the check is a pure
read — the embedding issues no writes), and removing the only qualifying
Grant makes the answer `false`. -/
theorem C2_check_user_access (db : AuthDB) (userID opID : Int) (code : String)
    (hcode : FindByCode db code = some opID) :
    (CheckUserAccess db userID code = .ok true
      ↔ ∃ roleID, (userID, roleID) ∈ db.userRoles
          ∧ (roleID, opID, true) ∈ db.roleOperations)
    ∧ (CheckUserAccess db userID code = .ok false
      ↔ ¬ ∃ roleID, (userID, roleID) ∈ db.userRoles
          ∧ (roleID, opID, true) ∈ db.roleOperations)
    ∧ (∀ g : Int × Int × Bool,
        (∀ ur ∈ db.userRoles, ∀ ro ∈ db.roleOperations,
          grantMatches userID opID ur ro = true → ro = g) →
        CheckUserAccess
          { db with roleOperations := db.roleOperations.filter fun ro => ro ≠ g }
          userID code = .ok false) := by
  have hunfold : CheckUserAccess db userID code
      = .ok (CheckUserOperationAccess db userID opID) := by
    simp [CheckUserAccess, hcode]
  refine ⟨?_, ?_, ?_⟩
  · rw [hunfold]
    simp only [Except.ok.injEq]
    exact checkUserOperationAccess_iff db userID opID
  · rw [hunfold]
    simp only [Except.ok.injEq]
    rw [← checkUserOperationAccess_iff db userID opID]
    cases h : CheckUserOperationAccess db userID opID <;> simp
  · intro g honly
    set db' : AuthDB :=
      { db with roleOperations := db.roleOperations.filter fun ro => ro ≠ g } with hdb'
    have hcode' : FindByCode db' code = some opID := hcode
    have hunfold' : CheckUserAccess db' userID code
        = .ok (CheckUserOperationAccess db' userID opID) := by
      simp [CheckUserAccess, hcode']
    rw [hunfold']
    simp only [Except.ok.injEq]
    rw [show (false : Bool) = decide False by simp]
    rw [show CheckUserOperationAccess db' userID opID = false from ?_]
    · simp
    · rw [← Bool.not_eq_true]
      intro htrue
      obtain ⟨roleID, hur, hro⟩ := (checkUserOperationAccess_iff db' userID opID).mp htrue
      have hro' : (roleID, opID, true) ∈ db.roleOperations ∧
          (decide ((roleID, opID, true) ≠ g)) = true := List.mem_filter.mp hro
      have heq : (roleID, opID, true) = g :=
        honly (userID, roleID) hur (roleID, opID, true) hro'.1 (by simp [grantMatches])
      simp [heq] at hro'

/-- C2 witness: a one-user, one-role, one-grant database; the grant's removal
flips the answer. -/
theorem C2_check_user_access_witness :
    FindByCode ⟨[(10, "rpt")], [(1, 2)], [(2, 10, true)]⟩ "rpt" = some 10
    ∧ CheckUserAccess ⟨[(10, "rpt")], [(1, 2)], [(2, 10, true)]⟩ 1 "rpt" = .ok true
    ∧ CheckUserAccess
        { operations := [(10, "rpt")], userRoles := [(1, 2)],
          roleOperations := [((2 : Int), (10 : Int), true)].filter
            fun ro => ro ≠ ((2 : Int), (10 : Int), true) }
        1 "rpt" = .ok false := by
  have h := C2_check_user_access ⟨[(10, "rpt")], [(1, 2)], [(2, 10, true)]⟩ 1 10 "rpt" rfl
  exact ⟨rfl, h.1.mpr ⟨2, by decide, by decide⟩,
    h.2.2 ((2 : Int), (10 : Int), true) (by decide)⟩

/-- C10: for a fixed data-source state and resolved window, the rows returned
by `GetInventoryReport` are identical for any two values of the
`departmentID` argument — the parameter is accepted but the query never
binds it. -/
theorem C10_department_independent (erp : List ErpRow) (fromDate toDate d₁ d₂ : Int) :
    GetInventoryReport erp fromDate toDate d₁ = GetInventoryReport erp fromDate toDate d₂ :=
  rfl

/-- C8 (amended): the view entry point's title embeds the localized label of
the period symbol when a period was supplied and the two formatted request
dates otherwise; the export entry point's title always embeds the two
formatted resolved window dates, even when a period symbol was supplied. -/
theorem C8_titles (env : PipelineEnv) (u d : Int) (req : DateRangeRequest) :
    (periodSupplied req = true →
      viewReportTitle req = "Report: " ++ formatPeriod (req.period.getD ""))
    ∧ (periodSupplied req = false → datesSupplied req = true →
      viewReportTitle req = "Report from " ++ formatDate (req.fromDate.getD 0)
        ++ " to " ++ formatDate (req.toDate.getD 0))
    ∧ (∀ file : ReportFile, (exportInventoryReport env u d req).1 = .ok file →
      ∃ f t, resolveDateRange env.now req = .ok (f, t)
        ∧ file.reportName = "Export Sales 230 from " ++ formatDate f
            ++ " to " ++ formatDate t) := by
  refine ⟨?_, ?_, ?_⟩
  · intro hp
    simp [viewReportTitle, hp]
  · intro hp hd2
    simp [viewReportTitle, hp, hd2]
  · intro file
    simp only [exportInventoryReport]
    rcases hres : resolveDateRange env.now req with e | ⟨f0, t0⟩ <;> simp only [hres]
    · intro h
      exact absurd h (by simp)
    · rcases hval : validateDateRange env.now env.maxMonths f0 t0 with e | v <;>
        simp only [hval]
      · intro h
        exact absurd h (by simp)
      · rcases hfetch : env.fetchResult with e2 | items <;> simp only [hfetch]
        · intro h
          exact absurd h (by simp)
        · split
          · intro h
            exact absurd h (by simp)
          · rcases hrender : env.renderResult with e3 | fname <;> simp only [hrender]
            · intro h
              exact absurd h (by simp)
            · intro h
              simp only [Except.ok.injEq] at h
              subst h
              exact ⟨f0, t0, rfl, rfl⟩

/-- C8 counterexample: a concrete export run whose request supplies the
period symbol `7days` produces a title embedding the two formatted dates —
the localized label of the period does not occur in it, so the claim is
false for the export entry point. -/
theorem C8_counterexample :
    (exportInventoryReport
        ⟨goDate 2024 3 15 0, 6, .ok 7,
         .ok [⟨"01/03/2024", "SO-1", "ACME", "VND", "1,000", "D-1", "INV-9", ""⟩],
         .ok "r.xlsx", false⟩ 42 5 ⟨none, none, some "7days"⟩).1
      = .ok ⟨"Export Sales 230 from 09/03/2024 to 15/03/2024", "r.xlsx"⟩
    ∧ occursIn (formatPeriod "7days").toList
        "Export Sales 230 from 09/03/2024 to 15/03/2024".toList = false := by
  exact ⟨rfl, by decide⟩

/-- C8 witness: the amended statement at concrete inputs. -/
theorem C8_titles_witness :
    viewReportTitle ⟨none, none, some "7days"⟩ = "Report: " ++ formatPeriod "7days"
    ∧ ∃ f t, resolveDateRange (goDate 2024 3 15 0) ⟨none, none, some "7days"⟩ = .ok (f, t)
        ∧ ("Export Sales 230 from 09/03/2024 to 15/03/2024" : String)
            = "Export Sales 230 from " ++ formatDate f ++ " to " ++ formatDate t := by
  have h := C8_titles
    ⟨goDate 2024 3 15 0, 6, .ok 7,
     .ok [⟨"01/03/2024", "SO-1", "ACME", "VND", "1,000", "D-1", "INV-9", ""⟩],
     .ok "r.xlsx", false⟩ 42 5 ⟨none, none, some "7days"⟩
  refine ⟨h.1 rfl, ?_⟩
  obtain ⟨f, t, hres, htitle⟩ := h.2.2
    ⟨"Export Sales 230 from 09/03/2024 to 15/03/2024", "r.xlsx"⟩ rfl
  exact ⟨f, t, hres, htitle⟩

/-! ## Tabular exporter -/

/-- Reading across an append: the first list wins where it has the cell. -/
theorem cellAt_append (l₁ l₂ : List ((Nat × Nat) × String)) (pos : Nat × Nat) :
    cellAt (l₁ ++ l₂) pos
      = match cellAt l₁ pos with
        | some v => some v
        | none => cellAt l₂ pos := by
  induction l₁ with
  | nil => rfl
  | cons c rest ih =>
    simp only [List.cons_append, cellAt]
    by_cases hc : c.1 = pos
    · rw [if_pos hc, if_pos hc]
    · rw [if_neg hc, if_neg hc]
      exact ih

/-- Closed form of a single written row: row `r`, columns `[c, c + len)`
clipped to the valid columns `A`..`Z` (index `< 26`). -/
theorem cellAt_rowCells (vals : List String) (c r : Nat) (pos : Nat × Nat) :
    cellAt (rowCells vals c r) pos
      = if pos.2 = r ∧ c ≤ pos.1 ∧ pos.1 < c + vals.length ∧ pos.1 < 26
        then vals.get? (pos.1 - c) else none := by
  induction vals generalizing c with
  | nil =>
    simp only [rowCells, cellAt, List.length_nil, List.get?_nil]
    rw [ite_self]
  | cons v rest ih =>
    have hcp : ((c, r) = pos) ↔ (c = pos.1 ∧ r = pos.2) := by
      constructor
      · intro h
        rw [← h]
        exact ⟨rfl, rfl⟩
      · rintro ⟨h1, h2⟩
        rw [h1, h2]
    by_cases h26 : c < 26
    · simp only [rowCells]
      rw [if_pos h26]
      simp only [cellAt, List.length_cons]
      by_cases hc : ((c, r) : Nat × Nat) = pos
      · rw [if_pos hc]
        obtain ⟨h1, h2⟩ := hcp.mp hc
        rw [if_pos ⟨h2.symm, by omega, by omega, by omega⟩]
        rw [show pos.1 - c = 0 from by omega]
        rfl
      · rw [if_neg hc, ih (c + 1)]
        have hcp2 : ¬ (c = pos.1 ∧ r = pos.2) := fun hh => hc (hcp.mpr hh)
        split_ifs with h1 h2
        · rw [show pos.1 - c = (pos.1 - (c + 1)) + 1 from by omega]
          rfl
        · exfalso
          omega
        · exfalso
          omega
        · rfl
    · simp only [rowCells]
      rw [if_neg h26, ih (c + 1)]
      simp only [List.length_cons]
      split_ifs <;> first | rfl | omega

/-- Reading a data cell within the valid columns: item `i`, header `j < 26`,
at row `r0 + i`. -/
theorem dataCells_get (headers : List String) (data : List RowMap) :
    ∀ (r0 i j : Nat) (row : RowMap) (h : String),
      data.get? i = some row → headers.get? j = some h → j < 26 →
      cellAt (dataCells headers data r0) (j, r0 + i)
        = some ((rowLookup row h).getD "") := by
  induction data with
  | nil =>
    intro r0 i j row h hi
    simp at hi
  | cons row0 rest ih =>
    intro r0 i j row h hi hj hj26
    have hjlt : j < headers.length := by
      by_contra hlt
      rw [List.get?_eq_none.mpr (by omega)] at hj
      cases hj
    cases i with
    | zero =>
      rw [show row = row0 from by simpa using hi.symm]
      simp only [dataCells, Nat.add_zero]
      rw [cellAt_append, cellAt_rowCells]
      rw [if_pos ⟨rfl, Nat.zero_le j, by simp only [List.length_map]; omega, hj26⟩]
      dsimp only
      rw [Nat.sub_zero, List.get?_map, hj]
      rfl
    | succ i' =>
      simp only [dataCells]
      rw [cellAt_append, cellAt_rowCells]
      rw [if_neg (by dsimp only; omega)]
      dsimp only
      rw [show r0 + (i' + 1) = (r0 + 1) + i' from by omega]
      exact ih (r0 + 1) i' j row h (by simpa using hi) hj hj26

/-- Outside the data region (above it, below it, right of the headers, or
beyond column Z) nothing is written. -/
theorem dataCells_none (headers : List String) (data : List RowMap) :
    ∀ (r0 : Nat) (pos : Nat × Nat),
      (pos.2 < r0 ∨ r0 + data.length ≤ pos.2 ∨ headers.length ≤ pos.1
        ∨ 26 ≤ pos.1) →
      cellAt (dataCells headers data r0) pos = none := by
  induction data with
  | nil =>
    intro r0 pos h
    rfl
  | cons row0 rest ih =>
    intro r0 pos h
    simp only [dataCells]
    rw [cellAt_append, cellAt_rowCells]
    have hneg : ¬ (pos.2 = r0 ∧ 0 ≤ pos.1
        ∧ pos.1 < 0 + (headers.map fun hh => (rowLookup row0 hh).getD "").length
        ∧ pos.1 < 26) := by
      simp only [List.length_map]
      simp only [List.length_cons] at h
      omega
    rw [if_neg hneg]
    dsimp only
    exact ih (r0 + 1) pos (by simp only [List.length_cons] at h; omega)

/-- C9 (amended): the artifact produced by `ExportToExcel` contains, in its
data region starting at row 4, the supplied values in the supplied column
order for the first 26 columns (fields named in the headers but absent from a
row render as empty; cells outside the data region are unwritten), and each
column-header cell on row 3 within the first 26 columns is the localization
map's translation of the field name, or the raw field name verbatim when the
map has no entry; columns beyond Z — header index `≥ 26` — are silently
dropped (the cell name `rune('A'+j)` is invalid and the write error is
discarded), so those headers and values never reach the artifact. -/
theorem C9_exporter (m : List (String × String)) (data : List RowMap)
    (headers : List String) (title : String) (i j : Nat) (row : RowMap) (h : String)
    (hi : data.get? i = some row) (hj : headers.get? j = some h) (hj26 : j < 26) :
    cellAt (excelCells m data headers title) (j, i + 4)
      = some ((rowLookup row h).getD "")
    ∧ cellAt (excelCells m data headers title) (j, 3) = some (TranslateKey m h)
    ∧ (∀ v, ((m.find? fun e => e.1 == h).map fun e => e.2) = some v → TranslateKey m h = v)
    ∧ (((m.find? fun e => e.1 == h).map fun e => e.2) = none → TranslateKey m h = h)
    ∧ (∀ i' j' : Nat, data.length ≤ i' →
        cellAt (excelCells m data headers title) (j', i' + 4) = none)
    ∧ (∀ i' j' : Nat, headers.length ≤ j' →
        cellAt (excelCells m data headers title) (j', i' + 4) = none)
    ∧ (∀ i' j' : Nat, 26 ≤ j' →
        cellAt (excelCells m data headers title) (j', i' + 4) = none
        ∧ cellAt (excelCells m data headers title) (j', 3) = none) := by
  have hjlt : j < headers.length := by
    by_contra hlt
    rw [List.get?_eq_none.mpr (by omega)] at hj
    cases hj
  refine ⟨?_, ?_, ?_, ?_, ?_, ?_, ?_⟩
  · simp only [excelCells, cellAt]
    rw [if_neg (by intro hq; have h2 := congrArg Prod.snd hq; dsimp only at h2; omega)]
    rw [cellAt_append, cellAt_rowCells]
    rw [if_neg (by dsimp only; omega)]
    dsimp only
    rw [show ((j, i + 4) : Nat × Nat) = (j, 4 + i) from by rw [Nat.add_comm 4 i]]
    exact dataCells_get headers data 4 i j row h hi hj hj26
  · simp only [excelCells, cellAt]
    rw [if_neg (by intro hq; have h2 := congrArg Prod.snd hq; dsimp only at h2; omega)]
    rw [cellAt_append, cellAt_rowCells]
    rw [if_pos ⟨rfl, Nat.zero_le j, by simp only [List.length_map]; omega, hj26⟩]
    dsimp only
    rw [Nat.sub_zero, List.get?_map, hj]
    rfl
  · intro v hv
    simp only [TranslateKey, hv]
  · intro hv
    simp only [TranslateKey, hv]
  · intro i' j' hlen
    simp only [excelCells, cellAt]
    rw [if_neg (by intro hq; have h2 := congrArg Prod.snd hq; dsimp only at h2; omega)]
    rw [cellAt_append, cellAt_rowCells]
    rw [if_neg (by dsimp only; omega)]
    dsimp only
    exact dataCells_none headers data 4 (j', i' + 4) (by dsimp only; omega)
  · intro i' j' hlen
    simp only [excelCells, cellAt]
    rw [if_neg (by intro hq; have h2 := congrArg Prod.snd hq; dsimp only at h2; omega)]
    rw [cellAt_append, cellAt_rowCells]
    rw [if_neg (by dsimp only; omega)]
    dsimp only
    exact dataCells_none headers data 4 (j', i' + 4) (by dsimp only; omega)
  · intro i' j' hwide
    constructor
    · simp only [excelCells, cellAt]
      rw [if_neg (by intro hq; have h2 := congrArg Prod.snd hq; dsimp only at h2; omega)]
      rw [cellAt_append, cellAt_rowCells]
      rw [if_neg (by dsimp only; omega)]
      dsimp only
      exact dataCells_none headers data 4 (j', i' + 4) (by dsimp only; omega)
    · simp only [excelCells, cellAt]
      rw [if_neg (by intro hq; have h2 := congrArg Prod.snd hq; dsimp only at h2; omega)]
      rw [cellAt_append, cellAt_rowCells]
      rw [if_neg (by dsimp only; omega)]
      dsimp only
      exact dataCells_none headers data 4 (j', 3) (by dsimp only; omega)

/-- C9 counterexample to the original claim: with 27 headers and a row that
supplies a value for the 27th field, the data region does NOT contain that
value — the cell in column index 26 of the first data row (row 4) is
unwritten, because `fmt.Sprintf("%c%d", rune('A'+26), 4)` names the invalid
cell `"[4"` and the discarded `SetCellValue` error drops the write; the same
cell's header on row 3 is dropped too. -/
theorem C9_counterexample :
    List.get?
      ["f00", "f01", "f02", "f03", "f04", "f05", "f06", "f07", "f08", "f09",
       "f10", "f11", "f12", "f13", "f14", "f15", "f16", "f17", "f18", "f19",
       "f20", "f21", "f22", "f23", "f24", "f25", "f26"] 26 = some "f26"
    ∧ List.get? [[("f26", "dropped")]] 0 = some [("f26", "dropped")]
    ∧ (rowLookup [("f26", "dropped")] "f26").getD "" = "dropped"
    ∧ cellAt (excelCells [] [[("f26", "dropped")]]
        ["f00", "f01", "f02", "f03", "f04", "f05", "f06", "f07", "f08", "f09",
         "f10", "f11", "f12", "f13", "f14", "f15", "f16", "f17", "f18", "f19",
         "f20", "f21", "f22", "f23", "f24", "f25", "f26"] "T") (26, 0 + 4) = none
    ∧ cellAt (excelCells [] [[("f26", "dropped")]]
        ["f00", "f01", "f02", "f03", "f04", "f05", "f06", "f07", "f08", "f09",
         "f10", "f11", "f12", "f13", "f14", "f15", "f16", "f17", "f18", "f19",
         "f20", "f21", "f22", "f23", "f24", "f25", "f26"] "T") (26, 3) = none := by
  exact ⟨rfl, rfl, rfl, rfl, rfl⟩

/-- C9 witness: a two-row, two-column artifact, with one translated header,
one untranslated header, a missing field rendering empty, and an extra field
ignored. -/
theorem C9_exporter_witness :
    (List.get? [[("a", "x1"), ("zzz", "ignored")], [("b", "y2")]] 1 = some [("b", "y2")])
    ∧ (List.get? ["a", "b"] 1 = some "b")
    ∧ (1 < 26)
    ∧ cellAt (excelCells [("a", "Trans A")]
        [[("a", "x1"), ("zzz", "ignored")], [("b", "y2")]] ["a", "b"] "T") (1, 1 + 4)
      = some ((rowLookup [("b", "y2")] "b").getD "")
    ∧ cellAt (excelCells [("a", "Trans A")]
        [[("a", "x1"), ("zzz", "ignored")], [("b", "y2")]] ["a", "b"] "T") (1, 3)
      = some (TranslateKey [("a", "Trans A")] "b") := by
  have h := C9_exporter [("a", "Trans A")]
    [[("a", "x1"), ("zzz", "ignored")], [("b", "y2")]] ["a", "b"] "T" 1 1
    [("b", "y2")] "b" (by rfl) (by rfl) (by decide)
  exact ⟨rfl, rfl, by decide, h.1, h.2.1⟩
